import Mathlib

/-!
Verification development for the `now-mcp` server (`src/main.rs`).

The repository is a minimal MCP host: three capability registries (tools,
prompts, resources), a dispatcher, and a line-oriented stdin/stdout loop.
`main.rs` is the only source file available; the registry modules
(`tool_registry.rs`, `prompt_registry.rs`, `resource_registry.rs`) and the
`context_server` dispatch library are declared/used there but their code is
not in the tree, so those parts are modelled from the spec, as marked on
each definition.  The clock read performed by `get_current_time_info` is an
external effect and is modelled as an explicit `LocalNow` value threaded
through the functions that read it.
-/

namespace NowMcp

/-- A minimal JSON value type, standing in for `serde_json::Value`:
argument payloads and tool input schemas are opaque structured data. -/
inductive Json where
  | null : Json
  | bool (b : Bool) : Json
  | num (n : Int) : Json
  | str (s : String) : Json
  | arr (xs : List Json) : Json
  | obj (fields : List (String × Json)) : Json

/-- Modelled from the spec: kind Tool "invocation returns a sequence of
content blocks — text/structured" (`context_server::ToolContent`; the crate
code is not in the tree).  `Text` is the variant the sample uses; `Data`
stands for the structured alternative. -/
inductive ToolContent where
  | Text (text : String) : ToolContent
  | Data (value : Json) : ToolContent

/-- Modelled from the spec: the static tool descriptor
(`context_server::Tool`): name, optional description, input schema. -/
structure Tool where
  name : String
  description : Option String
  input_schema : Json

/-- Modelled from the spec: role tag on a prompt message
(`context_server::PromptRole`). -/
inductive PromptRole where
  | User : PromptRole
  | Assistant : PromptRole
deriving DecidableEq, Repr

/-- Modelled from the spec: content of a prompt message
(`context_server::PromptContent`). -/
inductive PromptContent where
  | Text (text : String) : PromptContent
deriving DecidableEq, Repr

/-- Modelled from the spec: a role-tagged message
(`context_server::PromptMessage`). -/
structure PromptMessage where
  role : PromptRole
  content : PromptContent
deriving DecidableEq, Repr

/-- Modelled from the spec: kind Prompt "invocation returns a description
plus an ordered sequence of role-tagged messages"
(`context_server::ComputedPrompt`). -/
structure ComputedPrompt where
  description : String
  messages : List PromptMessage
deriving DecidableEq, Repr

/-- Modelled from the spec: a declared prompt argument
(`context_server::PromptArgument`): part of the prompt descriptor. -/
structure PromptArgument where
  name : String
  required : Bool
deriving DecidableEq, Repr

/-- Modelled from the spec: the static prompt descriptor
(`context_server::Prompt`): name and declared argument list. -/
structure Prompt where
  name : String
  arguments : List PromptArgument
deriving DecidableEq, Repr

/-- A reading of the local clock, standing in for `chrono::Local::now()`:
the rendered timestamp, the ISO week number, and the weekday name.  The
clock is an external effect, so it is threaded explicitly. -/
structure LocalNow where
  display : String
  week : Nat
  weekday : String
deriving DecidableEq, Repr

/-- `get_current_time_info` (`src/main.rs` lines 81–91): renders the
timestamp, ISO week and weekday into the dedented three-line block produced
by `formatdoc!`. -/
def get_current_time_info (t : LocalNow) : String :=
  "Current local time: " ++ t.display ++ "\n" ++
  "Week of the year: " ++ toString t.week ++ "\n" ++
  "Day of the week: " ++ t.weekday ++ "\n"

namespace NowTool

/-- `NowTool::execute` (`src/main.rs` lines 97–100): ignores its argument
payload, reads the clock, and returns a single text content block.
`Result<Vec<ToolContent>>` is modelled as `Except String (List ToolContent)`. -/
def execute (t : LocalNow) (_arguments : Option Json) :
    Except String (List ToolContent) :=
  Except.ok [ToolContent.Text (get_current_time_info t)]

/-- `NowTool::to_tool` (`src/main.rs` lines 102–113): the static descriptor. -/
def to_tool : Tool :=
  { name := "now"
    description := some
      "Retrieve the current local time, week of the year, and day of the week."
    input_schema := Json.obj
      [("type", Json.str "object"), ("properties", Json.obj [])] }

end NowTool

namespace NowPrompt

/-- `NowPrompt::name` (`src/main.rs` lines 120–122). -/
def name : String := "Now"

/-- `NowPrompt::compute` (`src/main.rs` lines 124–136): ignores its
argument payload, reads the clock, and returns a computed prompt with a
fixed description and one user-role text message. -/
def compute (t : LocalNow) (_arguments : Option Json) :
    Except String ComputedPrompt :=
  Except.ok
    { description := "Current time information"
      messages :=
        [{ role := PromptRole.User
           content := PromptContent.Text (get_current_time_info t) }] }

/-- `NowPrompt::to_prompt` (`src/main.rs` lines 138–143): the static
descriptor with an empty argument list. -/
def to_prompt : Prompt :=
  { name := name, arguments := [] }

end NowPrompt

/-- Modelled from the spec: the per-kind registry modules
(`tool_registry.rs`, `prompt_registry.rs`, `resource_registry.rs` are
declared in `main.rs` but their code is not in the tree): "a
concurrency-safe mapping from unique name to capability record; supports
registration at startup and lookup-by-name at request time".  Registration
prepends and lookup takes the first match, so a duplicate registration
replaces the prior entry from the reader's perspective. -/
structure Registry (α : Type) where
  entries : List (String × α)

namespace Registry

/-- Modelled from the spec: `Default::default()` — the empty registry. -/
def empty {α : Type} : Registry α := ⟨[]⟩

/-- Modelled from the spec: "`register(record)`: inserts under
`record.name`" (the name is passed explicitly here, extracted from the
record's descriptor by each per-kind wrapper). -/
def register {α : Type} (r : Registry α) (name : String) (record : α) :
    Registry α :=
  ⟨(name, record) :: r.entries⟩

/-- Modelled from the spec: "`lookup(name) -> Option<record>`: returns the
record if present, else absence". -/
def lookup {α : Type} (r : Registry α) (name : String) : Option α :=
  (r.entries.find? (fun p => p.1 == name)).map Prod.snd

/-- The names under which records are registered. -/
def names {α : Type} (r : Registry α) : List String :=
  r.entries.map Prod.fst

/-- Modelled from the spec: "`list()` returns all registered descriptors
... registration order is acceptable". -/
def list {α : Type} (r : Registry α) : List α :=
  r.entries.reverse.map Prod.snd

end Registry

/-- A tool registry entry: descriptor plus behavior (the boxed
`ToolExecutor` trait object). -/
structure ToolRecord where
  descriptor : Tool
  execute : LocalNow → Option Json → Except String (List ToolContent)

/-- A prompt registry entry: descriptor plus behavior (the boxed
`PromptExecutor` trait object). -/
structure PromptRecord where
  descriptor : Prompt
  compute : LocalNow → Option Json → Except String ComputedPrompt

/-- A resource registry entry; "not exercised by the sample but
structurally identical" per the spec. -/
structure ResourceRecord where
  name : String
  read : LocalNow → Except String String

/-- Modelled from the spec: the closed method set routed by the
dispatcher: "{list-tools, call-tool, list-prompts, get-prompt,
list-resources, read-resource}". -/
inductive RpcMethod where
  | listTools : RpcMethod
  | callTool : RpcMethod
  | listPrompts : RpcMethod
  | getPrompt : RpcMethod
  | listResources : RpcMethod
  | readResource : RpcMethod
deriving DecidableEq, Repr

/-- Modelled from the spec: a decoded request
(`context_server::ContextServerRpcRequest`): "a typed request with
`\x7bmethod, id?, name?, arguments?\x7d`". -/
structure RpcRequest where
  method : RpcMethod
  id : Option Nat
  name : Option String
  arguments : Option Json

/-- Modelled from the spec's error taxonomy: Not Found (protocol-level),
Invocation Failure (capability-level, with a message), and a
protocol-level error for a call/get/read request missing its capability
name. -/
inductive RpcError where
  | notFound (name : String) : RpcError
  | invocation (message : String) : RpcError
  | invalidParams : RpcError

/-- The kind-specific success payloads of the six methods. -/
inductive RpcResult where
  | tools (descriptors : List Tool) : RpcResult
  | toolResult (content : List ToolContent) : RpcResult
  | prompts (descriptors : List Prompt) : RpcResult
  | promptResult (computed : ComputedPrompt) : RpcResult
  | resources (names : List String) : RpcResult
  | resourceResult (content : String) : RpcResult

/-- Modelled from the spec: a response envelope
(`context_server::ContextServerRpcResponse`): "`\x7bid, result\x7d` or
`\x7bid, error\x7d`". -/
structure RpcResponse where
  id : Nat
  outcome : Except RpcError RpcResult

/-- The dispatcher state (`ContextServerState` / the built
`ContextServer`): server identity plus one registry per kind. -/
structure ServerState where
  serverInfo : String × String
  tools : Registry ToolRecord
  prompts : Registry PromptRecord
  resources : Registry ResourceRecord

/-- Modelled from the spec:
`ContextServerState::process_request` / `handle_incoming_message`
(`src/main.rs` lines 47–52; the dispatch body lives in the
`context_server` library, specified at its boundary): a request with no
`id` is a notification and produces no response; otherwise the method
selects one registry and one of list/invoke; a missing capability name
short-circuits to Not Found before any invocation; a capability failure
becomes an Invocation Failure payload. -/
def process_request (s : ServerState) (t : LocalNow) (req : RpcRequest) :
    Option RpcResponse :=
  match req.id with
  | none => none
  | some i =>
    some { id := i
           outcome :=
             match req.method with
             | .listTools =>
               Except.ok (.tools (s.tools.list.map (·.descriptor)))
             | .callTool =>
               match req.name with
               | none => Except.error .invalidParams
               | some n =>
                 match s.tools.lookup n with
                 | none => Except.error (.notFound n)
                 | some tr =>
                   match tr.execute t req.arguments with
                   | .ok content => Except.ok (.toolResult content)
                   | .error m => Except.error (.invocation m)
             | .listPrompts =>
               Except.ok (.prompts (s.prompts.list.map (·.descriptor)))
             | .getPrompt =>
               match req.name with
               | none => Except.error .invalidParams
               | some n =>
                 match s.prompts.lookup n with
                 | none => Except.error (.notFound n)
                 | some pr =>
                   match pr.compute t req.arguments with
                   | .ok computed => Except.ok (.promptResult computed)
                   | .error m => Except.error (.invocation m)
             | .listResources =>
               Except.ok (.resources (s.resources.list.map (·.name)))
             | .readResource =>
               match req.name with
               | none => Except.error .invalidParams
               | some n =>
                 match s.resources.lookup n with
                 | none => Except.error (.notFound n)
                 | some rr =>
                   match rr.read t with
                   | .ok content => Except.ok (.resourceResult content)
                   | .error m => Except.error (.invocation m) }

namespace ContextServerState

/-- `ContextServerState::new` (`src/main.rs` lines 28–45): an empty
resource registry, the tool registry with `NowTool` registered under its
descriptor name, the prompt registry with `NowPrompt` registered under its
name, and the server identity from the package metadata (`Cargo.toml` is
not in the tree; the repository is `now-mcp`). -/
def new : ServerState :=
  { serverInfo := ("now-mcp", "0.1.0")
    tools := Registry.empty.register NowTool.to_tool.name
      { descriptor := NowTool.to_tool, execute := NowTool.execute }
    prompts := Registry.empty.register NowPrompt.name
      { descriptor := NowPrompt.to_prompt, compute := NowPrompt.compute }
    resources := Registry.empty }

end ContextServerState

/-- One line of standard input, at the decoder boundary: either it decodes
into a request, or `serde_json::from_str` fails with an error message. -/
inductive InputLine where
  | malformed (message : String) : InputLine
  | valid (request : RpcRequest) : InputLine

/-- Modelled from the spec: "the core requires a decoder that turns one
line of input into a typed request" (`serde_json::from_str` in
`src/main.rs` line 62). -/
def decodeLine : InputLine → Except String RpcRequest
  | .malformed m => Except.error m
  | .valid r => Except.ok r

/-- The `main` read/dispatch/write loop (`src/main.rs` lines 61–76) over a
finite stdin: a line that fails to decode is logged
(`"Error parsing request: "` to stderr) and skipped; a decoded request is
dispatched, and its response (if any) is written before the next line is
read.  Returns the ordered stdout lines and the ordered stderr log lines. -/
def mainLoop (s : ServerState) (t : LocalNow) :
    List InputLine → List RpcResponse × List String
  | [] => ([], [])
  | l :: rest =>
    match decodeLine l with
    | .error e =>
      ((mainLoop s t rest).1,
       ("Error parsing request: " ++ e) :: (mainLoop s t rest).2)
    | .ok req =>
      match process_request s t req with
      | none => mainLoop s t rest
      | some resp => (resp :: (mainLoop s t rest).1, (mainLoop s t rest).2)

/-- The per-request dispatch outcome of one input line: the response the
loop would write for that line, if any. -/
def lineResponse (s : ServerState) (t : LocalNow) (l : InputLine) :
    Option RpcResponse :=
  match decodeLine l with
  | .error _ => none
  | .ok req => process_request s t req

/-- A registry access event, for stating the order of registrations and
lookups over a whole run. -/
inductive Event where
  | registerEvent (kind : String) (name : String) : Event
  | lookupEvent (kind : String) (name : String) : Event
deriving DecidableEq, Repr

/-- Whether an event is a registration. -/
def Event.isRegister : Event → Bool
  | .registerEvent _ _ => true
  | .lookupEvent _ _ => false

/-- Whether an event is a lookup. -/
def Event.isLookup : Event → Bool
  | .registerEvent _ _ => false
  | .lookupEvent _ _ => true

/-- The registrations performed by `ContextServerState::new`
(`src/main.rs` lines 28–45), in program order: the resource registry is
built empty, then `NowTool` is registered, then `NowPrompt`. -/
def registrationEvents : List Event :=
  [Event.registerEvent "tool" NowTool.to_tool.name,
   Event.registerEvent "prompt" NowPrompt.name]

/-- The registry lookups performed while dispatching one decoded request:
call-tool, get-prompt and read-resource each look up the named capability
in their registry; list methods enumerate without lookup; notifications
produce no dispatch. -/
def requestLookups (req : RpcRequest) : List Event :=
  match req.id with
  | none => []
  | some _ =>
    match req.method, req.name with
    | .callTool, some n => [Event.lookupEvent "tool" n]
    | .getPrompt, some n => [Event.lookupEvent "prompt" n]
    | .readResource, some n => [Event.lookupEvent "resource" n]
    | _, _ => []

/-- The registry lookups performed for one input line: a malformed line is
skipped and touches no registry. -/
def lineLookups (l : InputLine) : List Event :=
  match decodeLine l with
  | .error _ => []
  | .ok req => requestLookups req

/-- The registry-access trace of a whole run of `main` (`src/main.rs`
lines 56–79): the state is constructed (line 57) before the read loop
starts (line 61), so every registration event precedes every per-line
lookup event. -/
def programTrace (lines : List InputLine) : List Event :=
  registrationEvents ++ (lines.map lineLookups).flatten

/-- A server state with all three registries empty, as used to exercise
dispatch against an unpopulated tool registry. -/
def emptyServerState : ServerState :=
  { serverInfo := ("now-mcp", "0.1.0")
    tools := Registry.empty
    prompts := Registry.empty
    resources := Registry.empty }

/-- A fixed clock reading used to instantiate the universally quantified
theorems on concrete inputs. -/
def sampleClock : LocalNow :=
  { display := "2026-10-12 12:00:00 +00:00", week := 42, weekday := "Monday" }

/-! ## Registry lemmas -/

/-- Looking up a name immediately after registering it under that name
returns the registered record. -/
theorem Registry.lookup_register_self {α : Type} (r : Registry α)
    (n : String) (v : α) : (r.register n v).lookup n = some v := by
  simp [Registry.lookup, Registry.register, List.find?_cons_of_pos]

/-- Registering under a different name leaves a lookup unchanged. -/
theorem Registry.lookup_register_of_ne {α : Type} (r : Registry α)
    (n m : String) (v : α) (h : m ≠ n) :
    (r.register m v).lookup n = r.lookup n := by
  simp [Registry.lookup, Registry.register, List.find?_cons_of_neg, h]

/-- A lookup that already succeeds is preserved by any sequence of
registrations under other names. -/
theorem Registry.lookup_foldl_register {α : Type} (n : String) (v : α) :
    ∀ (later : List (String × α)) (acc : Registry α),
      acc.lookup n = some v → (∀ p ∈ later, p.1 ≠ n) →
      (later.foldl (fun acc p => acc.register p.1 p.2) acc).lookup n = some v := by
  intro later
  induction later with
  | nil => intro acc hacc _; simpa using hacc
  | cons p rest ih =>
    intro acc hacc hne
    simp only [List.foldl_cons]
    apply ih
    · rw [Registry.lookup_register_of_ne acc n p.1 p.2 (hne p (by simp))]
      exact hacc
    · intro q hq
      exact hne q (by simp [hq])

/-- C7: a record registered under name `n` is returned exactly by any
subsequent `lookup n`, across any later registrations under other names
(registration/lookup round-trip identity). -/
theorem register_lookup_roundtrip {α : Type} (r : Registry α) (n : String)
    (v : α) (later : List (String × α)) (h : ∀ p ∈ later, p.1 ≠ n) :
    (later.foldl (fun acc p => acc.register p.1 p.2) (r.register n v)).lookup n
      = some v :=
  Registry.lookup_foldl_register n v later (r.register n v)
    (Registry.lookup_register_self r n v) h

/-- Witness for C7 at a concrete registry: register `"a"`, then `"b"`,
and look up `"a"`. -/
theorem register_lookup_roundtrip_witness :
    (∀ p ∈ [("b", (1 : Nat))], p.1 ≠ "a") ∧
    (([("b", (1 : Nat))].foldl (fun acc p => acc.register p.1 p.2)
        (Registry.empty.register "a" 0)).lookup "a" = some 0) :=
  ⟨by decide, register_lookup_roundtrip Registry.empty "a" 0 [("b", 1)]
    (by decide)⟩

/-- C8: looking up a name that was never registered returns `none`; the
lookup is a total function, so it neither faults nor blocks. -/
theorem lookup_unregistered_eq_none {α : Type} (r : Registry α)
    (n : String) (h : n ∉ r.names) : r.lookup n = none := by
  rw [Registry.lookup, Option.map_eq_none', List.find?_eq_none]
  intro p hp
  simp only [beq_iff_eq]
  intro heq
  exact h (by simpa [Registry.names, heq] using List.mem_map_of_mem Prod.fst hp)

/-- Witness for C8: `"missing"` was never registered in a registry that
holds only `"now"`. -/
theorem lookup_unregistered_eq_none_witness :
    "missing" ∉ (Registry.empty.register "now" (0 : Nat)).names ∧
    (Registry.empty.register "now" (0 : Nat)).lookup "missing" = none :=
  ⟨by decide, lookup_unregistered_eq_none _ "missing" (by decide)⟩

/-! ## Dispatch and loop theorems -/

/-- C1: a call-tool request naming a capability absent from the tool
registry is dispatched to a protocol-level Not Found error response; the
dispatch is a total function (no crash, no hang) and short-circuits before
any capability behavior could be invoked — the result is fixed by the
failed lookup alone. -/
theorem callTool_unknown_name_not_found (s : ServerState) (t : LocalNow)
    (i : Nat) (n : String) (args : Option Json)
    (h : s.tools.lookup n = none) :
    process_request s t
      { method := .callTool, id := some i, name := some n, arguments := args }
      = some { id := i, outcome := Except.error (RpcError.notFound n) } := by
  simp [process_request, h]

/-- Witness for C1: `"missing"` against the empty tool registry. -/
theorem callTool_unknown_name_not_found_witness :
    emptyServerState.tools.lookup "missing" = none ∧
    process_request emptyServerState sampleClock
      { method := .callTool, id := some 1, name := some "missing",
        arguments := none }
      = some { id := 1, outcome := Except.error (RpcError.notFound "missing") } :=
  ⟨rfl, callTool_unknown_name_not_found emptyServerState sampleClock 1
    "missing" none rfl⟩

/-- C2: a line that fails to decode is logged and skipped with nothing
written, and the loop continues: a malformed line followed by a valid
request that produces a response yields exactly that one response and one
error log, with the loop running to completion. -/
theorem malformed_line_logged_and_skipped (s : ServerState) (t : LocalNow)
    (m : String) (req : RpcRequest) (resp : RpcResponse)
    (h : process_request s t req = some resp) :
    mainLoop s t [InputLine.malformed m, InputLine.valid req]
      = ([resp], ["Error parsing request: " ++ m]) := by
  simp [mainLoop, decodeLine, h]

/-- Witness for C2: a malformed line followed by a list-tools request
against the server's initial state. -/
theorem malformed_line_logged_and_skipped_witness :
    process_request ContextServerState.new sampleClock
      { method := .listTools, id := some 1, name := none, arguments := none }
      = some { id := 1, outcome := Except.ok (RpcResult.tools [NowTool.to_tool]) } ∧
    mainLoop ContextServerState.new sampleClock
      [InputLine.malformed "invalid",
       InputLine.valid { method := .listTools, id := some 1, name := none,
                         arguments := none }]
      = ([{ id := 1, outcome := Except.ok (RpcResult.tools [NowTool.to_tool]) }],
         ["Error parsing request: invalid"]) :=
  ⟨rfl, malformed_line_logged_and_skipped ContextServerState.new sampleClock
    "invalid" _ _ rfl⟩

/-- C3: the loop is strictly sequential and ordered — the stdout
responses of a run are exactly the per-line dispatch results, in the order
of the input lines that produced them. -/
theorem responses_in_request_order (s : ServerState) (t : LocalNow)
    (lines : List InputLine) :
    (mainLoop s t lines).1 = lines.filterMap (lineResponse s t) := by
  induction lines with
  | nil => rfl
  | cons l rest ih =>
    cases l with
    | malformed m => simp [mainLoop, decodeLine, lineResponse, ih]
    | valid req =>
      cases hp : process_request s t req <;>
        simp [mainLoop, decodeLine, lineResponse, hp, ih]

/-- C4: a decoded request with no `id` is a notification: dispatch
produces no response, so nothing is written for it. -/
theorem notification_produces_no_response (s : ServerState) (t : LocalNow)
    (req : RpcRequest) (h : req.id = none) :
    process_request s t req = none := by
  simp [process_request, h]

/-- Witness for C4: a call-tool notification naming `"now"` against the
initial state produces no response. -/
theorem notification_produces_no_response_witness :
    ({ method := .callTool, id := none, name := some "now",
       arguments := none } : RpcRequest).id = none ∧
    process_request ContextServerState.new sampleClock
      { method := .callTool, id := none, name := some "now", arguments := none }
      = none :=
  ⟨rfl, notification_produces_no_response ContextServerState.new sampleClock _
    rfl⟩

/-- C9: `NowTool::execute` ignores its argument payload (the result is the
same for any two payloads) and never fails: it always returns `Ok` with
exactly one content block, a Text block. -/
theorem nowTool_execute_ignores_args_never_fails (t : LocalNow)
    (args args2 : Option Json) :
    NowTool.execute t args = NowTool.execute t args2 ∧
    NowTool.execute t args
      = Except.ok [ToolContent.Text (get_current_time_info t)] :=
  ⟨rfl, rfl⟩

/-- C10: `NowPrompt::compute` ignores its argument payload and never
fails: it returns `Ok` with description `"Current time information"` and
exactly one User-role text message; its descriptor is named `"Now"` with
an empty argument list. -/
theorem nowPrompt_compute_ignores_args_never_fails (t : LocalNow)
    (args args2 : Option Json) :
    NowPrompt.compute t args = NowPrompt.compute t args2 ∧
    NowPrompt.compute t args
      = Except.ok
          { description := "Current time information"
            messages :=
              [{ role := PromptRole.User
                 content := PromptContent.Text (get_current_time_info t) }] } ∧
    NowPrompt.to_prompt = { name := "Now", arguments := [] } :=
  ⟨rfl, rfl, rfl⟩

/-- C5: with `"now"` registered in the tool registry (the server's
initial state), every call-tool request naming `"now"` yields a success
response whose content is a single non-empty text block. -/
theorem callTool_now_success_nonempty_text (t : LocalNow) (i : Nat)
    (args : Option Json) :
    process_request ContextServerState.new t
      { method := .callTool, id := some i, name := some "now",
        arguments := args }
      = some { id := i
               outcome := Except.ok (RpcResult.toolResult
                 [ToolContent.Text (get_current_time_info t)]) } ∧
    get_current_time_info t ≠ "" := by
  refine ⟨rfl, fun h => ?_⟩
  have h2 := congrArg String.data h
  simp only [get_current_time_info, String.data_append] at h2
  simp at h2

/-! ## Registration/lookup ordering over a whole run -/

/-- No event is both a registration and a lookup. -/
theorem Event.isLookup_eq_false_of_isRegister (e : Event)
    (h : e.isRegister = true) : e.isLookup = false := by
  cases e with
  | registerEvent kind name => rfl
  | lookupEvent kind name => simp [Event.isRegister] at h

/-- Dispatching one request emits only lookup events. -/
theorem requestLookups_only_lookups (req : RpcRequest) :
    ∀ e ∈ requestLookups req, e.isLookup = true := by
  unfold requestLookups
  split
  · simp
  · split <;> simp [Event.isLookup]

/-- Processing one input line emits only lookup events. -/
theorem lineLookups_only_lookups (l : InputLine) :
    ∀ e ∈ lineLookups l, e.isLookup = true := by
  unfold lineLookups
  split
  · simp
  · exact requestLookups_only_lookups _

/-- The whole loop emits only lookup events. -/
theorem flatten_lineLookups_only_lookups (lines : List InputLine) :
    ∀ e ∈ (lines.map lineLookups).flatten, e.isLookup = true := by
  intro e he
  rw [List.mem_flatten] at he
  obtain ⟨l, hl, hel⟩ := he
  rw [List.mem_map] at hl
  obtain ⟨line, _, rfl⟩ := hl
  exact lineLookups_only_lookups line e hel

/-- Initialization emits only registration events. -/
theorem registrationEvents_only_registers :
    ∀ e ∈ registrationEvents, e.isRegister = true := by decide

/-- C6: in the registry-access trace of any run, every registration event
precedes every lookup event: all `register` calls (performed by
`ContextServerState::new`) complete before the first `lookup`, and the
loop never inserts, removes or mutates a registry entry. -/
theorem registrations_precede_lookups (lines : List InputLine) (i j : Nat)
    (hreg : ((programTrace lines)[i]?).map Event.isRegister = some true)
    (hlook : ((programTrace lines)[j]?).map Event.isLookup = some true) :
    i < j := by
  obtain ⟨ei, hei, hregi⟩ := Option.map_eq_some'.1 hreg
  obtain ⟨ej, hej, hlookj⟩ := Option.map_eq_some'.1 hlook
  obtain ⟨hi, hgi⟩ := List.getElem?_eq_some.1 hei
  obtain ⟨hj, hgj⟩ := List.getElem?_eq_some.1 hej
  have hRlen : registrationEvents.length = 2 := rfl
  have hi2 : i < 2 := by
    by_contra hge
    push_neg at hge
    have hge2 : registrationEvents.length ≤ i := by omega
    have hmem : ei ∈ (lines.map lineLookups).flatten := by
      simp only [programTrace] at hgi
      rw [List.getElem_append_right hge2] at hgi
      exact hgi ▸ List.getElem_mem _
    have := flatten_lineLookups_only_lookups lines ei hmem
    have := Event.isLookup_eq_false_of_isRegister ei hregi
    simp_all
  have hj2 : 2 ≤ j := by
    by_contra hlt
    push_neg at hlt
    have hjR : j < registrationEvents.length := by omega
    have hmem : ej ∈ registrationEvents := by
      simp only [programTrace] at hgj
      rw [List.getElem_append_left hjR] at hgj
      exact hgj ▸ List.getElem_mem _
    have := registrationEvents_only_registers ej hmem
    have := Event.isLookup_eq_false_of_isRegister ej this
    simp_all
  omega

/-- Witness for C6: one valid call-tool line; the trace is two
registrations followed by one tool lookup, and indices 0 (a registration)
and 2 (a lookup) are ordered. -/
theorem registrations_precede_lookups_witness :
    ((programTrace [InputLine.valid
        { method := .callTool, id := some 1, name := some "now",
          arguments := none }])[0]?).map Event.isRegister = some true ∧
    ((programTrace [InputLine.valid
        { method := .callTool, id := some 1, name := some "now",
          arguments := none }])[2]?).map Event.isLookup = some true ∧
    (0 : Nat) < 2 :=
  ⟨by decide, by decide,
   registrations_precede_lookups
     [InputLine.valid
       { method := .callTool, id := some 1, name := some "now",
         arguments := none }] 0 2 (by decide) (by decide)⟩

end NowMcp
